import Mathlib

/-!
Verification of the task-admission controller (`app/services/manager/base_manager.py`,
`app/services/manager/memory_manager.py`) and of the term-generation error path
(`app/repositories/gen_text/generate_text.py`) of the TextToVid repository.

Two complementary embeddings of `TaskManager` are given:

* a sequential embedding, in which each method body is a Lean function on the
  manager's state (each `with self.lock:` block is ordinary sequential code
  here), used for the per-call properties of `add_task`, `run_task`,
  `check_queue` and `__init__`;
* a concurrent embedding, a small-step transition relation in which every
  lock-protected block of the source is one atomic step and thread scheduling
  is the nondeterminism, used for the interleaving properties (admission
  bound, FIFO order, completion accounting).
-/

/-- Tasks are identified by an id; `func`, `args` and `kwargs` are opaque payload
and play no role in the manager's bookkeeping. -/
abbrev Job : Type := Nat

/-- Outcome of running a job body `func(*args, **kwargs)`: it either returns
normally or raises an exception. -/
inductive Outcome where
  | ok
  | raises
deriving DecidableEq, Repr

/-- State of a `TaskManager` as observed through its attributes
(`max_concurrent_tasks`, `current_tasks`, `queue`), extended with two
observation logs: `dispatched` records each call to `execute_task` (a thread
spawn, in spawn order) and `dones` counts the calls to `task_done`. -/
structure MState where
  max_concurrent_tasks : Int
  current_tasks : Int
  queue : List Job
  dispatched : List Job
  dones : Nat
deriving DecidableEq, Repr

/-- Embedding of `TaskManager.__init__`: stores the limit unvalidated, sets
`current_tasks = 0` and creates an empty queue. The source performs no check
on `max_concurrent_tasks`, so this is a total function. -/
def TaskManager.init (max_concurrent_tasks : Int) : MState :=
  { max_concurrent_tasks := max_concurrent_tasks
    current_tasks := 0
    queue := []
    dispatched := []
    dones := 0 }

/-- Embedding of `TaskManager.execute_task`: starts a daemon thread running
`run_task`. In the sequential model this only records the spawn; the spawned
thread's own effects (`run_task`) are applied separately. -/
def execute_task (j : Job) (s : MState) : MState :=
  { s with dispatched := s.dispatched ++ [j] }

/-- Embedding of `TaskManager.add_task`: under the lock, if
`current_tasks < max_concurrent_tasks` the task is dispatched via
`execute_task`, otherwise `self.queue.put(...)` appends it to the queue tail. -/
def add_task (j : Job) (s : MState) : MState :=
  if s.current_tasks < s.max_concurrent_tasks then
    execute_task j s
  else
    { s with queue := s.queue ++ [j] }

/-- Embedding of `TaskManager.check_queue`: under the lock, if
`current_tasks < max_concurrent_tasks` then `self.queue.get_nowait()` is
attempted; on `Empty` the method returns (no state change), otherwise the
popped head task is dispatched via `execute_task`. -/
def check_queue (s : MState) : MState :=
  if s.current_tasks < s.max_concurrent_tasks then
    match s.queue with
    | [] => s
    | j :: rest => execute_task j { s with queue := rest }
  else
    s

/-- Embedding of `TaskManager.task_done`: under the lock `current_tasks` is
decremented (and the `dones` observation counter records the call); then, with
the lock released, `check_queue` runs. -/
def task_done (s : MState) : MState :=
  check_queue
    { s with
        current_tasks := s.current_tasks - 1
        dones := s.dones + 1 }

/-- Embedding of `TaskManager.run_task`: inside `try`, the lock is taken and
`current_tasks` is incremented, then the body runs; an exception from the body
is caught and logged (no state effect beyond the log); the `finally` clause
calls `task_done` on every path. The body itself does not touch the manager's
bookkeeping fields. -/
def run_task (o : Outcome) (j : Job) (s : MState) : MState :=
  let s1 := { s with current_tasks := s.current_tasks + 1 }
  let s2 :=
    match o with
    | Outcome.ok => s1
    | Outcome.raises => s1
  task_done s2

/-!  Class-dispatch model, for `InMemoryTaskManager`.

In Python, a method that a subclass adds or overrides only affects behaviour
if some inherited method dispatches to it through `self`. `MgrClass` records
the implementations carried by a class: the five methods `TaskManager`
defines, and the four methods only `InMemoryTaskManager` defines (absent in
the base class, hence `Option`). -/
structure MgrClass where
  add_task : Job → MState → MState
  execute_task : Job → MState → MState
  run_task : Outcome → Job → MState → MState
  check_queue : MState → MState
  task_done : MState → MState
  create_queue : Option (Unit → List Job)
  enqueue : Option (Job → MState → MState)
  dequeue : Option (MState → Option (Job × MState))
  is_queue_empty : Option (MState → Bool)

/-- The class dictionary of `TaskManager`: its five methods, and no
`create_queue` / `enqueue` / `dequeue` / `is_queue_empty`. -/
def taskManagerClass : MgrClass :=
  { add_task := add_task
    execute_task := execute_task
    run_task := run_task
    check_queue := check_queue
    task_done := task_done
    create_queue := none
    enqueue := none
    dequeue := none
    is_queue_empty := none }

/-- The class dictionary of `InMemoryTaskManager`: the base class with the
four queue methods added. `create_queue` returns a fresh empty queue,
`enqueue` is `self.queue.put(task)` (append at tail), `dequeue` is the
blocking `self.queue.get()` (modelled as `none` when the queue is empty, where
the call would block), `is_queue_empty` is `self.queue.empty()`. -/
def inMemoryTaskManagerClass : MgrClass :=
  { taskManagerClass with
      create_queue := some (fun _ => [])
      enqueue := some (fun j s => { s with queue := s.queue ++ [j] })
      dequeue := some (fun s =>
        match s.queue with
        | [] => none
        | j :: rest => some (j, { s with queue := rest }))
      is_queue_empty := some (fun s => s.queue.isEmpty) }

/-- One externally drivable call on a manager instance: a submission, a
spawned thread running its job to completion, a drain check, or a completion
callback. -/
inductive Event where
  | add (j : Job)
  | runJob (o : Outcome) (j : Job)
  | checkQ
  | taskDone
deriving DecidableEq, Repr

/-- Dispatch one event through a class's method table. -/
def MgrClass.step (c : MgrClass) (e : Event) (s : MState) : MState :=
  match e with
  | Event.add j => c.add_task j s
  | Event.runJob o j => c.run_task o j s
  | Event.checkQ => c.check_queue s
  | Event.taskDone => c.task_done s

/-- Run a sequence of calls through a class's method table. -/
def MgrClass.runTrace (c : MgrClass) (es : List Event) (s : MState) : MState :=
  es.foldl (fun st e => c.step e st) s

/-!  Model of `generate_terms` (`app/repositories/gen_text/generate_text.py`).

Library effects are abstracted as parameters: `respond i` is the string
returned by `_generate_response(prompt)` on retry `i` (that function catches
every exception and always returns a string), `parse` is `json.loads`, and
`extract` is `re.search(r"\[.*]", response)` returning the matched text. -/

/-- The error marker that `_generate_response`'s catch-all failure path puts
into its return value, and that `generate_terms` tests with `"Error: " in
response`. -/
def errMarker : String := "Error: "

/-- Leading-segment test: the first list read off character by character at
the head of the second. -/
def leadMatch : List Char → List Char → Bool
  | [], _ => true
  | _ :: _, [] => false
  | a :: as, b :: bs => a == b && leadMatch as bs

/-- Occurrence test: the first list appears contiguously somewhere inside
the second. -/
def occursIn : List Char → List Char → Bool
  | pat, [] => leadMatch pat []
  | pat, b :: bs => leadMatch pat (b :: bs) || occursIn pat bs

/-- Python's substring test `pat in s`: the character sequence of `pat`
occurs contiguously inside the character sequence of `s`. -/
def strContains (pat s : String) : Bool :=
  occursIn pat.data s.data

/-- A JSON value as far as `generate_terms` inspects one: either a list of
strings (the declared result shape), or any other value, of which only Python
truthiness is relevant to the control flow. -/
inductive JVal where
  | strList (l : List String)
  | other (truthy : Bool)
deriving DecidableEq, Repr

/-- Result of `json.loads`: a value, or an exception. -/
inductive ParseRes where
  | ok (v : JVal)
  | err
deriving DecidableEq, Repr

/-- The source's `isinstance(search_terms, list) and all(isinstance(t, str) ...)`
check. -/
def isStrList : JVal → Bool
  | JVal.strList _ => true
  | JVal.other _ => false

/-- Python truthiness of `search_terms and len(search_terms) > 0`: an empty
list is falsy and has length 0; a nonempty list is truthy with positive
length; for any other value the two tests are folded into its truthiness. -/
def truthyNonempty : JVal → Bool
  | JVal.strList l => !l.isEmpty
  | JVal.other b => b

/-- Result of `generate_terms`: the early `return response` hands back a raw
string, while the loop's fall-through `return search_terms` hands back
whatever JSON value `search_terms` last held. -/
inductive TermsResult where
  | errStr (s : String)
  | val (v : JVal)
deriving DecidableEq, Repr

/-- The body of `generate_terms`'s retry loop. `fuel` is the number of
iterations left of `range(_max_retries)`, `i` the current index,
`search_terms` and `response` the loop-carried variables. Each iteration:
fetch a response; if it contains the error marker return it verbatim;
otherwise parse it — on success assign `search_terms` and `continue` when the
value is not a list of strings, on a parse exception fall back to the
regex-extracted bracket slice if any; finally break when `search_terms` is
truthy and nonempty. -/
def genTermsLoop (respond : Nat → String) (parse : String → ParseRes)
    (extract : String → Option String) :
    Nat → Nat → JVal → String → TermsResult
  | 0, _, search_terms, _ => TermsResult.val search_terms
  | fuel + 1, i, search_terms, _ =>
    let response := respond i
    if strContains errMarker response then
      TermsResult.errStr response
    else
      match parse response with
      | ParseRes.ok v =>
        if isStrList v then
          if truthyNonempty v then
            TermsResult.val v
          else
            genTermsLoop respond parse extract fuel (i + 1) v response
        else
          genTermsLoop respond parse extract fuel (i + 1) v response
      | ParseRes.err =>
        let st' :=
          if response ≠ "" then
            match extract response with
            | some m =>
              match parse m with
              | ParseRes.ok v' => v'
              | ParseRes.err => search_terms
            | none => search_terms
          else
            search_terms
        if truthyNonempty st' then
          TermsResult.val st'
        else
          genTermsLoop respond parse extract fuel (i + 1) st' response

/-- Embedding of `generate_terms`: `search_terms = []`, `response = ""`, then
the retry loop with `_max_retries = 5`. -/
def generate_terms (respond : Nat → String) (parse : String → ParseRes)
    (extract : String → Option String) : TermsResult :=
  genTermsLoop respond parse extract 5 0 (JVal.strList []) ""

/-!  Concurrent embedding of `TaskManager`.

Every `with self.lock:` block of the source is one atomic step; everything
between two lock acquisitions is an interleaving point. A spawned `run_task`
thread passes through the phases below in order; the scheduler picks, at each
step, which thread (or which incoming `add_task` call) acts next. -/

/-- Phase of a spawned `run_task` thread:
`preInc` — thread started, has not yet acquired the lock to increment;
`running` — increment done, body executing;
`decPending` — body finished (normally or by a caught exception), `finally`
about to run `task_done`'s locked decrement;
`drainPending` — decrement done and its lock released, `check_queue` not yet
entered;
`finished` — `check_queue` returned, thread exits. -/
inductive Phase where
  | preInc
  | running
  | decPending
  | drainPending
  | finished
deriving DecidableEq, Repr

/-- Global state of the concurrent model: the manager's fields plus the
thread pool (one phase per spawned thread) and observation logs: `admitted`
records each `execute_task` call (dispatch order), `enqLog` each
`queue.put` from `add_task`, `deqLog` each successful `queue.get_nowait`,
and `decrements` counts executions of `task_done`'s decrement. -/
structure CSys where
  maxT : Int
  current : Int
  queue : List Job
  threads : List Phase
  admitted : List Job
  enqLog : List Job
  deqLog : List Job
  decrements : Nat
deriving DecidableEq, Repr

/-- Initial state of the concurrent model: a freshly constructed manager. -/
def initC (k : Int) : CSys :=
  { maxT := k, current := 0, queue := [], threads := [], admitted := []
    enqLog := [], deqLog := [], decrements := 0 }

/-- One atomic step of the concurrent model. Each constructor is one
lock-protected block of the source (or a body run, which touches no manager
state):

* `add_run` / `add_enq` — `add_task`'s locked check-then-dispatch-or-enqueue;
  a dispatch spawns a thread at `preInc` (the increment happens later, in the
  thread, under a separate lock acquisition);
* `inc` — `run_task`'s locked `current_tasks += 1`;
* `body` — the job body runs, returning normally or raising (caught);
* `dec` — `task_done`'s locked `current_tasks -= 1`;
* `drain_pop` / `drain_empty` / `drain_full` — `check_queue`'s single locked
  block: capacity check, `get_nowait`, and dispatch decision. -/
inductive Step : CSys → CSys → Prop where
  | add_run (s : CSys) (j : Job) (h : s.current < s.maxT) :
      Step s { s with threads := s.threads ++ [Phase.preInc],
                      admitted := s.admitted ++ [j] }
  | add_enq (s : CSys) (j : Job) (h : ¬ s.current < s.maxT) :
      Step s { s with queue := s.queue ++ [j], enqLog := s.enqLog ++ [j] }
  | inc (s : CSys) (i : Nat) (h : s.threads.get? i = some Phase.preInc) :
      Step s { s with threads := s.threads.set i Phase.running,
                      current := s.current + 1 }
  | body (s : CSys) (i : Nat) (o : Outcome)
      (h : s.threads.get? i = some Phase.running) :
      Step s { s with threads := s.threads.set i Phase.decPending }
  | dec (s : CSys) (i : Nat) (h : s.threads.get? i = some Phase.decPending) :
      Step s { s with threads := s.threads.set i Phase.drainPending,
                      current := s.current - 1,
                      decrements := s.decrements + 1 }
  | drain_pop (s : CSys) (i : Nat) (j : Job) (rest : List Job)
      (h : s.threads.get? i = some Phase.drainPending)
      (hc : s.current < s.maxT) (hq : s.queue = j :: rest) :
      Step s { s with threads := (s.threads.set i Phase.finished) ++ [Phase.preInc],
                      queue := rest,
                      deqLog := s.deqLog ++ [j],
                      admitted := s.admitted ++ [j] }
  | drain_empty (s : CSys) (i : Nat)
      (h : s.threads.get? i = some Phase.drainPending)
      (hc : s.current < s.maxT) (hq : s.queue = []) :
      Step s { s with threads := s.threads.set i Phase.finished }
  | drain_full (s : CSys) (i : Nat)
      (h : s.threads.get? i = some Phase.drainPending)
      (hc : ¬ s.current < s.maxT) :
      Step s { s with threads := s.threads.set i Phase.finished }

/-- Reachability from a freshly constructed manager with limit `k`. -/
abbrev ReachFrom (k : Int) (s : CSys) : Prop :=
  Relation.ReflTransGen Step (initC k) s

/-- A thread in one of these phases has been admitted (its dispatch is in
`admitted`) but has not yet executed `task_done`'s decrement. -/
def isPending : Phase → Bool
  | Phase.preInc => true
  | Phase.running => true
  | Phase.decPending => true
  | Phase.drainPending => false
  | Phase.finished => false

/-- Number of admitted-but-not-yet-decremented threads. -/
def pendingCount (s : CSys) : Nat :=
  s.threads.countP isPending

/-- A response string carrying `_generate_response`'s failure marker. -/
def demoErr : String := errMarker ++ "boom"

/-- State reached with limit 1 after two `add_task` calls are both admitted
before either spawned thread performs its `current_tasks += 1`: here both
increments have run and `current = 2 > maxT = 1`. -/
def overAdmitState : CSys :=
  { maxT := 1, current := 2, queue := [], threads := [Phase.running, Phase.running],
    admitted := [0, 1], enqLog := [], deqLog := [], decrements := 0 }

/-- State reached with limit 2 after two admitted jobs have both executed
`task_done`'s locked decrement while neither has yet entered `check_queue`:
both threads rest between the two critical sections. -/
def bothDrainPendingState : CSys :=
  { maxT := 2, current := 0, queue := [],
    threads := [Phase.drainPending, Phase.drainPending],
    admitted := [0, 1], enqLog := [], deqLog := [], decrements := 0 + 1 + 1 }

/-- State reached with limit 1 after: job 0 admitted and incremented, job 1
enqueued (capacity full), job 0's body finished, its decrement ran, and its
`check_queue` popped and dispatched job 1. -/
def demoDrainState : CSys :=
  { maxT := 1, current := 0, queue := [],
    threads := [Phase.finished, Phase.preInc],
    admitted := [0, 1], enqLog := [1], deqLog := [1], decrements := 1 }

/-- Quiescent state with limit 1 after one job ran (its body raising), its
completion was recorded and the empty queue was drained. -/
def quiesceState : CSys :=
  { maxT := 1, current := 0, queue := [], threads := [Phase.finished],
    admitted := [0], enqLog := [], deqLog := [], decrements := 1 }

/-- Helper: replacing the element at a valid index changes `countP` by the
difference of the predicate's value at the old and at the new element. -/
theorem countP_set_of_get (p : Phase → Bool) :
    ∀ (l : List Phase) (i : Nat) (a b : Phase), l.get? i = some a →
      (l.set i b).countP p + (if p a = true then 1 else 0) =
        l.countP p + (if p b = true then 1 else 0) := by
  intro l
  induction l with
  | nil => intro i a b h; simp at h
  | cons x xs ih =>
    intro i a b h
    cases i with
    | zero =>
      have hx : x = a := by simpa using h
      subst hx
      simp [List.countP_cons]
      omega
    | succ n =>
      have hn := ih n a b (by simpa using h)
      simp [List.countP_cons]
      omega

/-- Helper invariant: in every reachable state, the number of dispatches
recorded in `admitted` equals the number of `task_done` decrements executed
plus the number of admitted threads that have not yet decremented. -/
theorem reach_count_invariant (k : Int) (s : CSys) (h : ReachFrom k s) :
    s.admitted.length = s.decrements + pendingCount s := by
  induction h with
  | refl => rfl
  | tail _hr hstep ih =>
    rename_i t u
    cases hstep with
    | add_run j hc =>
      simp [pendingCount, List.countP_append, isPending] at ih ⊢
      omega
    | add_enq j hc =>
      simpa [pendingCount] using ih
    | inc i hti =>
      have hc := countP_set_of_get isPending t.threads i Phase.preInc Phase.running hti
      simp [isPending] at hc
      simp [pendingCount] at ih ⊢
      omega
    | body i o hti =>
      have hc := countP_set_of_get isPending t.threads i Phase.running Phase.decPending hti
      simp [isPending] at hc
      simp [pendingCount] at ih ⊢
      omega
    | dec i hti =>
      have hc :=
        countP_set_of_get isPending t.threads i Phase.decPending Phase.drainPending hti
      simp [isPending] at hc
      simp [pendingCount] at ih ⊢
      omega
    | drain_pop i j rest hti hcap hq =>
      have hc :=
        countP_set_of_get isPending t.threads i Phase.drainPending Phase.finished hti
      simp [isPending] at hc
      simp [pendingCount, List.countP_append, isPending] at ih ⊢
      omega
    | drain_empty i hti hcap hq =>
      have hc :=
        countP_set_of_get isPending t.threads i Phase.drainPending Phase.finished hti
      simp [isPending] at hc
      simp [pendingCount] at ih ⊢
      omega
    | drain_full i hti hcap =>
      have hc :=
        countP_set_of_get isPending t.threads i Phase.drainPending Phase.finished hti
      simp [isPending] at hc
      simp [pendingCount] at ih ⊢
      omega

/-- Helper invariant: in every reachable state the enqueue log splits as the
dequeue log followed by the current queue — enqueue appends at the tail and
every dequeue pops exactly the head. -/
theorem reach_fifo_invariant (k : Int) (s : CSys) (h : ReachFrom k s) :
    s.enqLog = s.deqLog ++ s.queue := by
  induction h with
  | refl => rfl
  | tail _hr hstep ih =>
    rename_i t u
    cases hstep with
    | add_run j hc => exact ih
    | add_enq j hc =>
      show t.enqLog ++ [j] = t.deqLog ++ (t.queue ++ [j])
      rw [ih, List.append_assoc]
    | inc i hti => exact ih
    | body i o hti => exact ih
    | dec i hti => exact ih
    | drain_pop i j rest hti hcap hq =>
      show t.enqLog = (t.deqLog ++ [j]) ++ rest
      rw [ih, hq, List.append_assoc]
      rfl
    | drain_empty i hti hcap hq => exact ih
    | drain_full i hti hcap => exact ih

/-- Helper: the state `demoDrainState` is reachable from a fresh manager with
limit 1 by: admit job 0, increment, enqueue job 1, run job 0's body, record
its completion, and drain the queue (dispatching job 1). -/
theorem demoDrainReach : ReachFrom 1 demoDrainState :=
  .head (Step.add_run _ 0 (by decide))
    (.head (Step.inc _ 0 (by decide))
      (.head (Step.add_enq _ 1 (by decide))
        (.head (Step.body _ 0 Outcome.ok (by decide))
          (.head (Step.dec _ 0 (by decide))
            (.head (Step.drain_pop _ 0 1 [] (by decide) (by decide) (by decide))
              .refl)))))

/-- C1: the claim states that `current_tasks` never exceeds
`max_concurrent_tasks` and that the capacity check and the increment form one
atomic step of submission. In the code the check runs under the lock in
`add_task`, but the increment runs later, in the spawned thread's `run_task`,
under a separate lock acquisition. With limit 1, two `add_task` calls can
both pass the check (each sees `current_tasks = 0`) before either thread
increments; after both increments `current_tasks = 2 > 1` is reachable, so
the claimed invariant fails on the code. -/
theorem C1_overadmission_reachable :
    ReachFrom 1 overAdmitState ∧ overAdmitState.maxT < overAdmitState.current :=
  ⟨.head (Step.add_run _ 0 (by decide))
    (.head (Step.add_run _ 1 (by decide))
      (.head (Step.inc _ 0 (by decide))
        (.head (Step.inc _ 1 (by decide)) .refl))),
   by decide⟩

/-- C2: for every dispatched job, whether its body returns normally or
raises, `run_task`'s `finally` clause invokes `task_done` exactly once (the
`dones` counter grows by one), the freed increment balances the decrement
(`current_tasks` is unchanged across the whole lifecycle), and the two
outcomes produce identical manager states — the caught exception never
touches the admission bookkeeping. -/
theorem C2_completion_always_fires (j : Job) (s : MState) :
    (∀ o : Outcome, (run_task o j s).dones = s.dones + 1 ∧
      (run_task o j s).current_tasks = s.current_tasks) ∧
    run_task Outcome.ok j s = run_task Outcome.raises j s := by
  have key : ∀ t : MState, (check_queue t).dones = t.dones ∧
      (check_queue t).current_tasks = t.current_tasks := by
    intro t
    unfold check_queue
    split
    · split <;> simp [execute_task]
    · exact ⟨rfl, rfl⟩
  have kd : ∀ t : MState, (task_done t).dones = t.dones + 1 ∧
      (task_done t).current_tasks = t.current_tasks - 1 := by
    intro t
    unfold task_done
    exact ⟨(key _).1, (key _).2⟩
  refine ⟨fun o => ?_, rfl⟩
  cases o
  · refine ⟨(kd _).1, ?_⟩
    show (task_done { s with current_tasks := s.current_tasks + 1 }).current_tasks
        = s.current_tasks
    rw [(kd _).2]
    show s.current_tasks + 1 - 1 = s.current_tasks
    omega
  · refine ⟨(kd _).1, ?_⟩
    show (task_done { s with current_tasks := s.current_tasks + 1 }).current_tasks
        = s.current_tasks
    rw [(kd _).2]
    show s.current_tasks + 1 - 1 = s.current_tasks
    omega

/-- C3 counterexample: the claim states that `task_done`'s decrement and the
queue-drain check form a single critical section. In the code the lock is
released after `self.current_tasks -= 1` and re-acquired inside
`check_queue`. Accordingly a state is reachable (limit 2, two jobs run to
completion) in which both completions have executed their decrement while
neither has yet entered `check_queue`: each thread rests between the two
critical sections, which could not be observed if decrement and drain were
one atomic step. -/
theorem C3_counterexample_lock_released_between :
    ReachFrom 2 bothDrainPendingState ∧
    bothDrainPendingState.threads = [Phase.drainPending, Phase.drainPending] ∧
    bothDrainPendingState.decrements = 2 :=
  ⟨.head (Step.add_run _ 0 (by decide))
    (.head (Step.add_run _ 1 (by decide))
      (.head (Step.inc _ 0 (by decide))
        (.head (Step.inc _ 1 (by decide))
          (.head (Step.body _ 0 Outcome.ok (by decide))
            (.head (Step.body _ 1 Outcome.ok (by decide))
              (.head (Step.dec _ 0 (by decide))
                (.head (Step.dec _ 1 (by decide)) .refl))))))),
   by decide, by decide⟩

/-- C3 amended: `task_done`'s decrement and `check_queue` are two separate
critical sections, but the pop-and-dispatch decision inside `check_queue` is
itself a single critical section, so no interleaving of completions dispatches
the same queued job twice: in every reachable state, if the submitted jobs
are pairwise distinct then so are the dequeued-and-dispatched ones. -/
theorem C3_no_double_dispatch (k : Int) (s : CSys) (h : ReachFrom k s)
    (hnd : s.enqLog.Nodup) : s.deqLog.Nodup := by
  have hf := reach_fifo_invariant k s h
  rw [hf] at hnd
  exact hnd.of_append_left

/-- C3 witness: along the concrete admit-enqueue-complete-drain run reaching
`demoDrainState`, the enqueue log is duplicate-free and so is the dequeue
log. -/
theorem C3_no_double_dispatch_witness :
    demoDrainState.enqLog.Nodup ∧ demoDrainState.deqLog.Nodup :=
  ⟨by decide, C3_no_double_dispatch 1 demoDrainState demoDrainReach (by decide)⟩

/-- C4 counterexample: the claim states that constructing a `TaskManager`
with a non-positive `max_concurrent_tasks` raises a configuration error.
`__init__` performs no validation: construction with limit `-1` succeeds,
stores the non-positive limit, and the resulting controller silently accepts
submissions — `add_task` on it dispatches nothing and enqueues the job. -/
theorem C4_counterexample_nonpositive_limit_accepted :
    TaskManager.init (-1) =
      { max_concurrent_tasks := -1, current_tasks := 0, queue := [],
        dispatched := [], dones := 0 } ∧
    (add_task 0 (TaskManager.init (-1))).dispatched = [] ∧
    (add_task 0 (TaskManager.init (-1))).queue = [0] :=
  ⟨rfl, by decide, by decide⟩

/-- C4 amended: construction with `max_concurrent_tasks ≤ 0` succeeds (no
validation is performed) and produces a controller on which, as long as
`current_tasks` is non-negative, every `add_task` enqueues and never
dispatches. -/
theorem C4_amended_nonpositive_limit_silently_enqueues (k : Int) (hk : k ≤ 0)
    (j : Job) (s : MState) (hs : s.max_concurrent_tasks = k)
    (hc : 0 ≤ s.current_tasks) :
    add_task j s = { s with queue := s.queue ++ [j] } := by
  have hn : ¬ s.current_tasks < s.max_concurrent_tasks := by
    rw [hs]; omega
  unfold add_task
  rw [if_neg hn]

/-- C4 witness: with limit `-1`, submitting job 0 to a fresh manager appends
it to the queue and dispatches nothing. -/
theorem C4_amended_witness :
    (-1 : Int) ≤ 0 ∧ (TaskManager.init (-1)).max_concurrent_tasks = -1 ∧
    0 ≤ (TaskManager.init (-1)).current_tasks ∧
    add_task 0 (TaskManager.init (-1)) =
      { TaskManager.init (-1) with queue := [0] } :=
  ⟨by decide, rfl, by decide,
   C4_amended_nonpositive_limit_silently_enqueues (-1) (by decide) 0
     (TaskManager.init (-1)) rfl (by decide)⟩

/-- C5: queued jobs are admitted in strict submission order. In every
reachable state the enqueue log is the dequeue log followed by the still
queued jobs — so the dequeue log is a prefix of the enqueue log, and the
`i`-th job ever dequeued-and-dispatched is exactly the `i`-th job ever
enqueued. -/
theorem C5_fifo_admission_order (k : Int) (s : CSys) (h : ReachFrom k s) :
    s.enqLog = s.deqLog ++ s.queue ∧
    ∀ i : Nat, i < s.deqLog.length → s.deqLog[i]? = s.enqLog[i]? := by
  have hf := reach_fifo_invariant k s h
  refine ⟨hf, fun i hi => ?_⟩
  rw [hf, List.getElem?_append_left hi]

/-- C5 witness: along the concrete run reaching `demoDrainState`, the
enqueue log splits as dequeue log plus queue, and position 0 of the dequeue
log agrees with position 0 of the enqueue log. -/
theorem C5_fifo_admission_order_witness :
    demoDrainState.enqLog = demoDrainState.deqLog ++ demoDrainState.queue ∧
    demoDrainState.deqLog[0]? = demoDrainState.enqLog[0]? :=
  ⟨(C5_fifo_admission_order 1 demoDrainState demoDrainReach).1,
   (C5_fifo_admission_order 1 demoDrainState demoDrainReach).2 0 (by decide)⟩

/-- C6: completion accounting balances admissions. In every reachable state
the number of dispatched jobs equals the number of `task_done` decrements
plus the number of dispatched threads that have not yet decremented; in
particular, once every spawned thread has finished, the total number of
decrements equals the total number of admissions — each dispatched job's
completion is counted exactly once. -/
theorem C6_decrements_match_admissions (k : Int) (s : CSys) (h : ReachFrom k s) :
    s.admitted.length = s.decrements + pendingCount s ∧
    ((∀ p ∈ s.threads, p = Phase.finished) → s.admitted.length = s.decrements) := by
  refine ⟨reach_count_invariant k s h, fun hall => ?_⟩
  have hz : pendingCount s = 0 := by
    unfold pendingCount
    rw [List.countP_eq_zero]
    intro a ha
    rw [hall a ha]
    simp [isPending]
  have h2 := reach_count_invariant k s h
  omega

/-- C6 witness: a run with limit 1 in which one job is admitted, its body
raises, its completion is recorded and the empty queue is drained; in the
quiescent final state one admission matches one decrement. -/
theorem C6_decrements_match_admissions_witness :
    quiesceState.admitted.length = quiesceState.decrements + pendingCount quiesceState ∧
    quiesceState.admitted.length = quiesceState.decrements := by
  have hr : ReachFrom 1 quiesceState :=
    .head (Step.add_run _ 0 (by decide))
      (.head (Step.inc _ 0 (by decide))
        (.head (Step.body _ 0 Outcome.raises (by decide))
          (.head (Step.dec _ 0 (by decide))
            (.head (Step.drain_empty _ 0 (by decide) (by decide) (by decide))
              .refl))))
  exact ⟨(C6_decrements_match_admissions 1 quiesceState hr).1,
    (C6_decrements_match_admissions 1 quiesceState hr).2 (by decide)⟩

/-- C7: `add_task` is a total function of the submission and the current
state — its result is computed synchronously, never waiting for a slot: it
either dispatches the job (recording it in `dispatched`, queue unchanged) or
appends it to the queue tail (`dispatched` unchanged); in both cases it
returns without touching `current_tasks`. -/
theorem C7_add_task_never_blocks (j : Job) (s : MState) :
    ((add_task j s).dispatched = s.dispatched ++ [j] ∧
      (add_task j s).queue = s.queue ∧
      (add_task j s).current_tasks = s.current_tasks) ∨
    ((add_task j s).dispatched = s.dispatched ∧
      (add_task j s).queue = s.queue ++ [j] ∧
      (add_task j s).current_tasks = s.current_tasks) := by
  unfold add_task
  split
  · exact Or.inl ⟨rfl, rfl, rfl⟩
  · exact Or.inr ⟨rfl, rfl, rfl⟩

/-- C8: draining an empty queue is a safe no-op — `check_queue` on a state
whose queue is empty returns the state unchanged (the `Empty` exception from
`get_nowait` is caught and the method simply returns). -/
theorem C8_empty_drain_is_noop (s : MState) (h : s.queue = []) :
    check_queue s = s := by
  unfold check_queue
  split
  · rw [h]
  · rfl

/-- C8 witness: on a freshly constructed manager with limit 2 the queue is
empty and `check_queue` leaves the state unchanged. -/
theorem C8_empty_drain_is_noop_witness :
    (TaskManager.init 2).queue = [] ∧
    check_queue (TaskManager.init 2) = TaskManager.init 2 :=
  ⟨rfl, C8_empty_drain_is_noop (TaskManager.init 2) rfl⟩

/-- C9: `InMemoryTaskManager` is observationally equivalent to `TaskManager`
for every sequence of calls: its four added methods (`create_queue`,
`enqueue`, `dequeue`, `is_queue_empty`) are never dispatched to by the
inherited `add_task` / `run_task` / `check_queue` / `task_done`, which
operate on `self.queue.put` / `self.queue.get_nowait` directly — indeed any
choice whatsoever of those four methods leaves every trace's outcome
unchanged. -/
theorem C9_inmemory_observationally_equivalent (es : List Event) (s : MState) :
    MgrClass.runTrace inMemoryTaskManagerClass es s =
      MgrClass.runTrace taskManagerClass es s ∧
    ∀ (cq : Option (Unit → List Job)) (e : Option (Job → MState → MState))
      (d : Option (MState → Option (Job × MState))) (q : Option (MState → Bool)),
      MgrClass.runTrace
        { taskManagerClass with
            create_queue := cq, enqueue := e, dequeue := d, is_queue_empty := q }
        es s = MgrClass.runTrace taskManagerClass es s :=
  ⟨rfl, fun _ _ _ _ => rfl⟩

/-- C10: whenever `_generate_response` takes its catch-all failure path and
hands back a string containing the error marker, `generate_terms` returns
that raw string verbatim (`return response`) instead of a list of search
terms, so its result does not match the declared `List[str]` type. -/
theorem C10_generate_terms_returns_raw_error_string (respond : Nat → String)
    (parse : String → ParseRes) (extract : String → Option String)
    (h : strContains errMarker (respond 0) = true) :
    generate_terms respond parse extract = TermsResult.errStr (respond 0) := by
  unfold generate_terms
  unfold genTermsLoop
  simp [h]

/-- C10 witness: with every retry answering the failure string, the first
iteration's marker test fires and `generate_terms` returns that string. -/
theorem C10_generate_terms_returns_raw_error_string_witness :
    strContains errMarker demoErr = true ∧
    generate_terms (fun _ => demoErr) (fun _ => ParseRes.err) (fun _ => none)
      = TermsResult.errStr demoErr :=
  ⟨by decide,
   C10_generate_terms_returns_raw_error_string (fun _ => demoErr)
     (fun _ => ParseRes.err) (fun _ => none) (by decide)⟩
